import Mathlib

/-!
# etxt: glyph-mask byte size, font properties and missing runes

A shallow embedding of `src/ecache/ebiten_no.go` and `src/font_properties.go`.

Conventions of the embedding:

* Go's `int` is a two's-complement integer of `bits` bits (32 or 64 depending
  on the platform); `uint32` arithmetic is taken modulo `2^32`.
* A Go `error` is an `Option GoError`, `none` being `nil`; a Go pointer that
  may be `nil` is an `Option`.
* A call either returns or panics (`Call`); the package-level flag
  `usingSfntBuffer` is threaded through explicitly.
* A text is taken with the rune sequence that `for _, codePoint := range text`
  yields, which is the character list of the string; every rune that `range`
  can yield (U+FFFD for an invalid byte included) is a character.
* The font library `sfnt` is outside the repository: a font is given by what
  its methods `Name` and `GlyphIndex` return.
-/

namespace Etxt

/-! ## Machine integers -/

/-- Two's-complement wrap of a mathematical integer into a signed Go `int` of
`bits` bits. -/
def wrapInt (bits : Nat) (x : Int) : Int :=
  (x + 2 ^ (bits - 1)) % 2 ^ bits - 2 ^ (bits - 1)

/-- The Go conversion `uint32(x)` of a signed integer. -/
def toUint32 (x : Int) : Nat :=
  (x % 2 ^ 32).toNat

/-! ## `image` types used by the glyph mask -/

/-- Go's `image.Point`. -/
structure Point where
  X : Int
  Y : Int
deriving DecidableEq

/-- Go's `image.Rectangle`. -/
structure Rectangle where
  Min : Point
  Max : Point
deriving DecidableEq

/-- The method `Rectangle.Dx`: `r.Max.X - r.Min.X` in `int` arithmetic. -/
def Rectangle.Dx (bits : Nat) (r : Rectangle) : Int :=
  wrapInt bits (r.Max.X - r.Min.X)

/-- The method `Rectangle.Dy`: `r.Max.Y - r.Min.Y` in `int` arithmetic. -/
def Rectangle.Dy (bits : Nat) (r : Rectangle) : Int :=
  wrapInt bits (r.Max.Y - r.Min.Y)

/-- Go's `image.Alpha`: the pixel bytes, the stride and the bounds. -/
structure Alpha where
  Pix : List Nat
  Stride : Int
  Rect : Rectangle
deriving DecidableEq

/-- The type `GlyphMask = *image.Alpha`; `none` is the nil mask. -/
abbrev GlyphMask := Option Alpha

/-! ## `src/ecache/ebiten_no.go` -/

/-- The constant `constMaskSizeFactor`. -/
def constMaskSizeFactor : Nat := 56

/-- The function `maskDimsByteSize`:
`uint32(width*height) + constMaskSizeFactor`, the product in `int`
arithmetic and the sum in `uint32` arithmetic. -/
def maskDimsByteSize (bits : Nat) (width height : Int) : Nat :=
  (toUint32 (wrapInt bits (width * height)) + constMaskSizeFactor) % 2 ^ 32

/-- The function `GlyphMaskByteSize`. -/
def GlyphMaskByteSize (bits : Nat) (mask : GlyphMask) : Nat :=
  match mask with
  | none => constMaskSizeFactor
  | some m => maskDimsByteSize bits (m.Rect.Dx bits) (m.Rect.Dy bits)

/-! ## Errors, fonts and calls -/

/-- The Go error values the code distinguishes by identity: the value
`sfnt.ErrNotFound` of the font library, the value `ErrNotFound` that
`src/font_properties.go` declares with `errors.New`, and every other error. -/
inductive GoError where
  | sfntNotFound
  | propertyNotFound
  | other (msg : String)
deriving DecidableEq

/-- The package variable `ErrNotFound` of `src/font_properties.go`. -/
def ErrNotFound : GoError := GoError.propertyNotFound

/-- The variable `sfnt.ErrNotFound` of the font library. -/
def sfnt.ErrNotFound : GoError := GoError.sfntNotFound

/-- The type `sfnt.NameID`. -/
abbrev sfnt.NameID := Nat

/-- The constant `sfnt.NameIDFamily`. -/
def sfnt.NameIDFamily : sfnt.NameID := 1

/-- The constant `sfnt.NameIDSubfamily`. -/
def sfnt.NameIDSubfamily : sfnt.NameID := 2

/-- The constant `sfnt.NameIDUniqueIdentifier`. -/
def sfnt.NameIDUniqueIdentifier : sfnt.NameID := 3

/-- The constant `sfnt.NameIDFull`. -/
def sfnt.NameIDFull : sfnt.NameID := 4

/-- A `*sfnt.Buffer` as this file uses it: `nil`, or the address of the
package variable `sfntBuffer`. -/
inductive BufferPtr where
  | nil
  | sfntBuffer
deriving DecidableEq

/-- A font of the external library, given by what its two methods used here
return: `Name(buffer, id)` yields a string and an error, `GlyphIndex(buffer,
codePoint)` a glyph index and an error. Both are parameters of the
development. -/
structure Font where
  Name : BufferPtr → sfnt.NameID → String × Option GoError
  GlyphIndex : BufferPtr → Char → Nat × Option GoError

/-- The outcome of a call: a returned value, or a panic that unwinds the
caller. -/
inductive Call (α : Type) where
  | ret (v : α)
  | panic
deriving DecidableEq

/-- The call `font.Name(buffer, property)` on a `*Font`: a nil font is
dereferenced by the method and panics. -/
def callName (font : Option Font) (buffer : BufferPtr) (property : sfnt.NameID) :
    Call (String × Option GoError) :=
  match font with
  | none => Call.panic
  | some f => Call.ret (f.Name buffer property)

/-- The call `font.GlyphIndex(buffer, codePoint)` on a `*Font`: a nil font is
dereferenced by the method and panics. -/
def callGlyphIndex (font : Option Font) (buffer : BufferPtr) (codePoint : Char) :
    Call (Nat × Option GoError) :=
  match font with
  | none => Call.panic
  | some f => Call.ret (f.GlyphIndex buffer codePoint)

/-! ## `src/font_properties.go`

The package variable `usingSfntBuffer` is the `Nat` that every function takes
and gives back. -/

/-- The call `atomic.CompareAndSwapUint32(addr, old, new)`: whether the swap
happened, and the new content. -/
def CompareAndSwapUint32 (content old new : Nat) : Bool × Nat :=
  if content = old then (true, new) else (false, content)

/-- The function `getSfntBuffer`. -/
def getSfntBuffer (usingSfntBuffer : Nat) : BufferPtr × Nat :=
  match CompareAndSwapUint32 usingSfntBuffer 0 1 with
  | (false, flag) => (BufferPtr.nil, flag)
  | (true, flag) => (BufferPtr.sfntBuffer, flag)

/-- The function `releaseSfntBuffer`. -/
def releaseSfntBuffer (buffer : BufferPtr) (usingSfntBuffer : Nat) : Nat :=
  if buffer ≠ BufferPtr.nil then 0 else usingSfntBuffer

/-- The function `FontProperty`. The release is an ordinary statement after
the lookup, so a lookup that panics leaves before it runs. -/
def FontProperty (font : Option Font) (property : sfnt.NameID) (usingSfntBuffer : Nat) :
    Call (String × Option GoError) × Nat :=
  match getSfntBuffer usingSfntBuffer with
  | (buffer, flag) =>
    match callName font buffer property with
    | Call.panic => (Call.panic, flag)
    | Call.ret (str, err) =>
      let flag := releaseSfntBuffer buffer flag
      if err ≠ none then (Call.ret ("", err), flag)
      else (Call.ret (str, none), flag)

/-- The function `FontFamily`. -/
def FontFamily (font : Option Font) (usingSfntBuffer : Nat) :
    Call (String × Option GoError) × Nat :=
  match FontProperty font sfnt.NameIDFamily usingSfntBuffer with
  | (Call.panic, flag) => (Call.panic, flag)
  | (Call.ret (value, err), flag) =>
    if err = some sfnt.ErrNotFound ∨ value = "" then (Call.ret (value, some ErrNotFound), flag)
    else (Call.ret (value, err), flag)

/-- The function `FontSubfamily`. -/
def FontSubfamily (font : Option Font) (usingSfntBuffer : Nat) :
    Call (String × Option GoError) × Nat :=
  match FontProperty font sfnt.NameIDSubfamily usingSfntBuffer with
  | (Call.panic, flag) => (Call.panic, flag)
  | (Call.ret (value, err), flag) =>
    if err = some sfnt.ErrNotFound ∨ value = "" then (Call.ret (value, some ErrNotFound), flag)
    else (Call.ret (value, err), flag)

/-- The function `FontName`. -/
def FontName (font : Option Font) (usingSfntBuffer : Nat) :
    Call (String × Option GoError) × Nat :=
  match FontProperty font sfnt.NameIDFull usingSfntBuffer with
  | (Call.panic, flag) => (Call.panic, flag)
  | (Call.ret (value, err), flag) =>
    if err = some sfnt.ErrNotFound ∨ value = "" then (Call.ret (value, some ErrNotFound), flag)
    else (Call.ret (value, err), flag)

/-- The function `FontIdentifier`. -/
def FontIdentifier (font : Option Font) (usingSfntBuffer : Nat) :
    Call (String × Option GoError) × Nat :=
  match FontProperty font sfnt.NameIDUniqueIdentifier usingSfntBuffer with
  | (Call.panic, flag) => (Call.panic, flag)
  | (Call.ret (value, err), flag) =>
    if err = some sfnt.ErrNotFound ∨ value = "" then (Call.ret (value, some ErrNotFound), flag)
    else (Call.ret (value, err), flag)

/-- The loop of `GetMissingRunes` over the runes still to visit, `missing`
being the slice built so far. -/
def missingRunesLoop (font : Option Font) (buffer : BufferPtr) :
    List Char → List Char → Call (List Char × Option GoError)
  | [], missing => Call.ret (missing, none)
  | codePoint :: rest, missing =>
    match callGlyphIndex font buffer codePoint with
    | Call.panic => Call.panic
    | Call.ret (index, err) =>
      if err ≠ none then Call.ret (missing, err)
      else if index = 0 then missingRunesLoop font buffer rest (missing ++ [codePoint])
      else missingRunesLoop font buffer rest missing

/-- The function `GetMissingRunes`. The release is deferred, so it runs when
the function returns and when it panics. -/
def GetMissingRunes (font : Option Font) (text : String) (usingSfntBuffer : Nat) :
    Call (List Char × Option GoError) × Nat :=
  match getSfntBuffer usingSfntBuffer with
  | (buffer, flag) =>
    (missingRunesLoop font buffer text.data [], releaseSfntBuffer buffer flag)

/-! ## Predicates used in the statements -/

/-- The body shared by `FontFamily`, `FontSubfamily`, `FontName` and
`FontIdentifier`, with the name ID left open. Used only to state lemmas once
for the four functions. -/
def propertyOrNotFound (property : sfnt.NameID) (font : Option Font) (usingSfntBuffer : Nat) :
    Call (String × Option GoError) × Nat :=
  match FontProperty font property usingSfntBuffer with
  | (Call.panic, flag) => (Call.panic, flag)
  | (Call.ret (value, err), flag) =>
    if err = some sfnt.ErrNotFound ∨ value = "" then (Call.ret (value, some ErrNotFound), flag)
    else (Call.ret (value, err), flag)

/-- The lookup reports the requested information as missing: it fails with
`sfnt.ErrNotFound`, or it succeeds with the empty string. -/
def lookupMissing (r : String × Option GoError) : Prop :=
  r.2 = some sfnt.ErrNotFound ∨ r = ("", none)

/-- The relation between the result `lookup` of the name
lookup and the outcome `out` of a name function: the function returns, its
error is nil exactly when its string is non-empty, exactly when the lookup
succeeded with a non-empty string, and then its string is that of the
lookup. -/
def nilErrorIffNonEmpty (lookup : String × Option GoError)
    (out : Call (String × Option GoError)) : Prop :=
  ∃ value err, out = Call.ret (value, err) ∧
    (err = none ↔ value ≠ "") ∧
    (err = none ↔ (lookup.2 = none ∧ lookup.1 ≠ "")) ∧
    (err = none → value = lookup.1)

/-- Whether the font has no glyph for the code point: the glyph index that
`GlyphIndex` returns is 0. -/
def glyphMissing (f : Font) (buffer : BufferPtr) (codePoint : Char) : Bool :=
  decide ((f.GlyphIndex buffer codePoint).1 = 0)

/-! ## Sample inputs -/

/-- A mask of 3 by 2 pixels. -/
def sampleMask : Alpha :=
  ⟨[1, 2, 3, 4, 5, 6], 3, ⟨⟨0, 0⟩, ⟨3, 2⟩⟩⟩

/-- A mask of zero width and height 4. -/
def emptyMask : Alpha :=
  ⟨[], 0, ⟨⟨5, 5⟩, ⟨5, 9⟩⟩⟩

/-- A font with a family name, an empty subfamily, no full name, and a name
table that is invalid at the unique identifier; it has glyphs for ASCII, no
glyph for the other code points below U+0800, and fails above. -/
def sampleFont : Font :=
  ⟨fun _ id =>
      if id = 1 then ("Lato", none)
      else if id = 2 then ("", none)
      else if id = 3 then ("", some (GoError.other "sfnt: invalid name table"))
      else ("", some sfnt.ErrNotFound),
   fun _ c =>
      if c.toNat < 128 then (c.toNat, none)
      else if c.toNat < 2048 then (0, none)
      else (0, some (GoError.other "sfnt: invalid cmap table"))⟩

/-- A font whose name table lacks all four names: two lookups report
`sfnt.ErrNotFound`, two succeed with the empty string. -/
def namelessFont : Font :=
  ⟨fun _ id => if id = 1 ∨ id = 4 then ("", some sfnt.ErrNotFound) else ("", none),
   fun _ _ => (1, none)⟩

/-- A font whose name table is invalid: every name lookup fails with the
error of the font library for that, which is not `sfnt.ErrNotFound`. -/
def invalidNameTableFont : Font :=
  ⟨fun _ _ => ("", some (GoError.other "sfnt: invalid name table")),
   fun _ _ => (1, none)⟩

/-! ## Theorems: the byte size of a glyph mask -/

/-- Converting a wrapped `int` to `uint32` only depends on the value modulo
`2^32`, for every `int` width of at least 32 bits. -/
theorem toUint32_wrapInt (bits : Nat) (hb : 32 ≤ bits) (x : Int) :
    toUint32 (wrapInt bits x) = (x % 2 ^ 32).toNat := by
  unfold toUint32 wrapInt
  have hdvd : ((2 : Int) ^ 32) ∣ 2 ^ bits := pow_dvd_pow 2 hb
  congr 1
  rw [Int.sub_emod, Int.emod_emod_of_dvd _ hdvd, ← Int.sub_emod]
  congr 1
  ring

/-- A product of two non-negative dimensions below `2^32 - 56` costs exactly
the area plus the overhead. -/
theorem maskDimsByteSize_exact (bits : Nat) (hb : 32 ≤ bits) (w h : Int)
    (hw : 0 ≤ w) (hh : 0 ≤ h) (hlt : w * h + 56 < 2 ^ 32) :
    (maskDimsByteSize bits w h : Int) = w * h + 56 := by
  unfold maskDimsByteSize constMaskSizeFactor
  rw [toUint32_wrapInt bits hb]
  have hp : 0 ≤ w * h := Int.mul_nonneg hw hh
  generalize w * h = p at hp hlt ⊢
  have h1 : p % 2 ^ 32 = p := Int.emod_eq_of_lt hp (by omega)
  rw [h1]
  omega

/-- Claim C1. `GlyphMaskByteSize` returns the pixel area of the mask plus the
fixed overhead of 56: exactly `w*h + 56` for a non-nil mask of width
`w = Rect.Dx() ≥ 0` and height `h = Rect.Dy() ≥ 0` with `w*h + 56 < 2^32`,
and exactly 56 for the nil mask and for every mask of zero width or zero
height. Holds for every `int` width of at least 32 bits. -/
theorem GlyphMaskByteSize_area_plus_overhead (bits : Nat) (hb : 32 ≤ bits) :
    (∀ m : Alpha, 0 ≤ m.Rect.Dx bits → 0 ≤ m.Rect.Dy bits →
        m.Rect.Dx bits * m.Rect.Dy bits + 56 < 2 ^ 32 →
        (GlyphMaskByteSize bits (some m) : Int)
          = m.Rect.Dx bits * m.Rect.Dy bits + 56) ∧
    GlyphMaskByteSize bits none = 56 ∧
    (∀ m : Alpha, m.Rect.Dx bits = 0 ∨ m.Rect.Dy bits = 0 →
        GlyphMaskByteSize bits (some m) = 56) := by
  refine ⟨?_, rfl, ?_⟩
  · intro m hw hh hlt
    exact maskDimsByteSize_exact bits hb _ _ hw hh hlt
  · intro m hz
    have hprod : m.Rect.Dx bits * m.Rect.Dy bits = 0 := by
      rcases hz with h | h <;> simp [h]
    simp only [GlyphMaskByteSize, maskDimsByteSize, hprod]
    rw [toUint32_wrapInt bits hb]
    simp [constMaskSizeFactor]

/-- Witness: on a 64-bit platform a mask of 3 by 2 pixels costs 62 bytes, the
nil mask 56 and a mask of zero width 56. -/
theorem GlyphMaskByteSize_area_plus_overhead_witness :
    (GlyphMaskByteSize 64 (some sampleMask) : Int) = 3 * 2 + 56 ∧
    GlyphMaskByteSize 64 none = 56 ∧
    GlyphMaskByteSize 64 (some emptyMask) = 56 :=
  ⟨(GlyphMaskByteSize_area_plus_overhead 64 (by decide)).1 sampleMask
      (by decide) (by decide) (by decide),
   (GlyphMaskByteSize_area_plus_overhead 64 (by decide)).2.1,
   (GlyphMaskByteSize_area_plus_overhead 64 (by decide)).2.2 emptyMask (Or.inl (by decide))⟩

/-! ## Theorems: font properties -/

theorem FontFamily_eq : FontFamily = propertyOrNotFound sfnt.NameIDFamily := rfl

theorem FontSubfamily_eq : FontSubfamily = propertyOrNotFound sfnt.NameIDSubfamily := rfl

theorem FontName_eq : FontName = propertyOrNotFound sfnt.NameIDFull := rfl

theorem FontIdentifier_eq :
    FontIdentifier = propertyOrNotFound sfnt.NameIDUniqueIdentifier := rfl

/-- What `FontProperty` returns on a non-nil font, in terms of the lookup. -/
theorem FontProperty_some (f : Font) (property : sfnt.NameID) (flag : Nat) :
    (FontProperty (some f) property flag).1 =
      Call.ret (if (f.Name (getSfntBuffer flag).1 property).2 = none
        then ((f.Name (getSfntBuffer flag).1 property).1, none)
        else ("", (f.Name (getSfntBuffer flag).1 property).2)) := by
  unfold FontProperty callName
  rcases hb : getSfntBuffer flag with ⟨b, fl⟩
  rcases hn : f.Name b property with ⟨str, err⟩
  cases err <;> simp [hn]

/-- What the four name functions return on a non-nil font, in terms of the
lookup: the looked-up string with a nil error when the lookup succeeded with a
non-empty string, and the empty string with `ErrNotFound` in every other
case. -/
theorem propertyOrNotFound_some (f : Font) (property : sfnt.NameID) (flag : Nat) :
    (propertyOrNotFound property (some f) flag).1 =
      Call.ret (if (f.Name (getSfntBuffer flag).1 property).2 = none ∧
          (f.Name (getSfntBuffer flag).1 property).1 ≠ ""
        then ((f.Name (getSfntBuffer flag).1 property).1, none)
        else ("", some ErrNotFound)) := by
  unfold propertyOrNotFound FontProperty callName
  rcases hb : getSfntBuffer flag with ⟨b, fl⟩
  rcases hn : f.Name b property with ⟨str, err⟩
  cases err with
  | none =>
    by_cases hs : str = ""
    · simp [hn, hs]
    · simp [hn, hs]
  | some e => simp [hn]

/-- Claim C5. `FontProperty` passes the result of the name lookup through
unchanged: a successful lookup gives its string with a nil error, also when
that string is empty, and a failed lookup gives the empty string with exactly
the error of the lookup. -/
theorem FontProperty_passes_lookup_through (f : Font) (property : sfnt.NameID) (flag : Nat) :
    ((f.Name (getSfntBuffer flag).1 property).2 = none →
      (FontProperty (some f) property flag).1 =
        Call.ret ((f.Name (getSfntBuffer flag).1 property).1, none)) ∧
    (∀ e : GoError, (f.Name (getSfntBuffer flag).1 property).2 = some e →
      (FontProperty (some f) property flag).1 = Call.ret ("", some e)) := by
  rw [FontProperty_some]
  constructor
  · intro h
    simp [h]
  · intro e h
    simp [h]

/-- Witness: an empty subfamily is passed through with a nil error, and
the error of an invalid name table is passed through with the empty string. -/
theorem FontProperty_passes_lookup_through_witness :
    (FontProperty (some sampleFont) sfnt.NameIDSubfamily 0).1 = Call.ret ("", none) ∧
    (FontProperty (some sampleFont) sfnt.NameIDUniqueIdentifier 0).1 =
      Call.ret ("", some (GoError.other "sfnt: invalid name table")) :=
  ⟨(FontProperty_passes_lookup_through sampleFont sfnt.NameIDSubfamily 0).1 rfl,
   (FontProperty_passes_lookup_through sampleFont sfnt.NameIDUniqueIdentifier 0).2 _ rfl⟩

theorem propertyOrNotFound_missing (f : Font) (property : sfnt.NameID) (flag : Nat)
    (h : lookupMissing (f.Name (getSfntBuffer flag).1 property)) :
    (propertyOrNotFound property (some f) flag).1 = Call.ret ("", some ErrNotFound) := by
  rw [propertyOrNotFound_some]
  rcases h with h | h <;> simp [h]

/-- Claim C3. For each of `FontFamily`, `FontSubfamily`, `FontName` and
`FontIdentifier` and every font: when the name lookup reports
`sfnt.ErrNotFound` or succeeds with the empty string, the function returns the
empty string together with the package's own `ErrNotFound`, which is a value
different from `sfnt.ErrNotFound`. -/
theorem name_functions_missing_give_ErrNotFound (f : Font) (flag : Nat) :
    ErrNotFound ≠ sfnt.ErrNotFound ∧
    (lookupMissing (f.Name (getSfntBuffer flag).1 sfnt.NameIDFamily) →
      (FontFamily (some f) flag).1 = Call.ret ("", some ErrNotFound)) ∧
    (lookupMissing (f.Name (getSfntBuffer flag).1 sfnt.NameIDSubfamily) →
      (FontSubfamily (some f) flag).1 = Call.ret ("", some ErrNotFound)) ∧
    (lookupMissing (f.Name (getSfntBuffer flag).1 sfnt.NameIDFull) →
      (FontName (some f) flag).1 = Call.ret ("", some ErrNotFound)) ∧
    (lookupMissing (f.Name (getSfntBuffer flag).1 sfnt.NameIDUniqueIdentifier) →
      (FontIdentifier (some f) flag).1 = Call.ret ("", some ErrNotFound)) := by
  rw [FontFamily_eq, FontSubfamily_eq, FontName_eq, FontIdentifier_eq]
  exact ⟨by decide, propertyOrNotFound_missing f _ flag, propertyOrNotFound_missing f _ flag,
    propertyOrNotFound_missing f _ flag, propertyOrNotFound_missing f _ flag⟩

/-- Witness: a font without names. -/
theorem name_functions_missing_give_ErrNotFound_witness :
    (FontFamily (some namelessFont) 0).1 = Call.ret ("", some ErrNotFound) ∧
    (FontSubfamily (some namelessFont) 0).1 = Call.ret ("", some ErrNotFound) ∧
    (FontName (some namelessFont) 0).1 = Call.ret ("", some ErrNotFound) ∧
    (FontIdentifier (some namelessFont) 0).1 = Call.ret ("", some ErrNotFound) :=
  ⟨(name_functions_missing_give_ErrNotFound namelessFont 0).2.1 (Or.inl rfl),
   (name_functions_missing_give_ErrNotFound namelessFont 0).2.2.1 (Or.inr rfl),
   (name_functions_missing_give_ErrNotFound namelessFont 0).2.2.2.1 (Or.inl rfl),
   (name_functions_missing_give_ErrNotFound namelessFont 0).2.2.2.2 (Or.inr rfl)⟩

theorem propertyOrNotFound_nilErrorIffNonEmpty (f : Font) (property : sfnt.NameID)
    (flag : Nat) :
    nilErrorIffNonEmpty (f.Name (getSfntBuffer flag).1 property)
      (propertyOrNotFound property (some f) flag).1 := by
  unfold nilErrorIffNonEmpty
  rw [propertyOrNotFound_some]
  by_cases h : (f.Name (getSfntBuffer flag).1 property).2 = none ∧
      (f.Name (getSfntBuffer flag).1 property).1 ≠ ""
  · refine ⟨(f.Name (getSfntBuffer flag).1 property).1, none, ?_, ?_, ?_, ?_⟩
    · rw [if_pos h]
    · simp [h.2]
    · simp [h]
    · intro _; rfl
  · refine ⟨"", some ErrNotFound, ?_, ?_, ?_, ?_⟩
    · rw [if_neg h]
    · simp
    · simp only [reduceCtorEq, false_iff]
      exact h
    · intro hc
      cases hc

/-- Claim C9. For each of `FontFamily`, `FontSubfamily`, `FontName` and
`FontIdentifier` and every font, the returned error is nil if and only if the
returned string is non-empty, which is exactly when the name lookup succeeded
with a non-empty string, and then that string is returned unchanged. -/
theorem name_functions_nil_error_iff_nonempty (f : Font) (flag : Nat) :
    nilErrorIffNonEmpty (f.Name (getSfntBuffer flag).1 sfnt.NameIDFamily)
      (FontFamily (some f) flag).1 ∧
    nilErrorIffNonEmpty (f.Name (getSfntBuffer flag).1 sfnt.NameIDSubfamily)
      (FontSubfamily (some f) flag).1 ∧
    nilErrorIffNonEmpty (f.Name (getSfntBuffer flag).1 sfnt.NameIDFull)
      (FontName (some f) flag).1 ∧
    nilErrorIffNonEmpty (f.Name (getSfntBuffer flag).1 sfnt.NameIDUniqueIdentifier)
      (FontIdentifier (some f) flag).1 := by
  rw [FontFamily_eq, FontSubfamily_eq, FontName_eq, FontIdentifier_eq]
  exact ⟨propertyOrNotFound_nilErrorIffNonEmpty f _ flag,
    propertyOrNotFound_nilErrorIffNonEmpty f _ flag,
    propertyOrNotFound_nilErrorIffNonEmpty f _ flag,
    propertyOrNotFound_nilErrorIffNonEmpty f _ flag⟩

/-- On a non-nil font the four name functions never return an error other
than `ErrNotFound`. -/
theorem propertyOrNotFound_error_is_ErrNotFound (f : Font) (property : sfnt.NameID)
    (flag : Nat) :
    ∃ value, (propertyOrNotFound property (some f) flag).1 = Call.ret (value, none) ∨
      (propertyOrNotFound property (some f) flag).1 = Call.ret (value, some ErrNotFound) := by
  rw [propertyOrNotFound_some]
  by_cases h : (f.Name (getSfntBuffer flag).1 property).2 = none ∧
      (f.Name (getSfntBuffer flag).1 property).1 ≠ ""
  · exact ⟨_, Or.inl (by rw [if_pos h])⟩
  · exact ⟨_, Or.inr (by rw [if_neg h])⟩

/-- Claim C2, evaluated where it fails. On a font whose name lookup fails with
the error of an invalid name table, `FontProperty` returns that error, but
each of `FontFamily`, `FontSubfamily`, `FontName` and `FontIdentifier` returns
`ErrNotFound` in its place: the empty string that comes with the error makes
the test `value == ""` true. -/
theorem name_functions_replace_other_errors :
    (FontProperty (some invalidNameTableFont) sfnt.NameIDFamily 0).1 =
      Call.ret ("", some (GoError.other "sfnt: invalid name table")) ∧
    GoError.other "sfnt: invalid name table" ≠ sfnt.ErrNotFound ∧
    (FontFamily (some invalidNameTableFont) 0).1 = Call.ret ("", some ErrNotFound) ∧
    (FontSubfamily (some invalidNameTableFont) 0).1 = Call.ret ("", some ErrNotFound) ∧
    (FontName (some invalidNameTableFont) 0).1 = Call.ret ("", some ErrNotFound) ∧
    (FontIdentifier (some invalidNameTableFont) 0).1 = Call.ret ("", some ErrNotFound) := by
  decide

/-! ## Theorems: the scratch buffer -/

theorem getSfntBuffer_zero : getSfntBuffer 0 = (BufferPtr.sfntBuffer, 1) := rfl

/-- Once granted, the buffer is released by `GetMissingRunes` however the
loop ends. -/
theorem GetMissingRunes_releases (font : Option Font) (text : String) :
    (GetMissingRunes font text 0).2 = 0 := by
  simp [GetMissingRunes, getSfntBuffer_zero, releaseSfntBuffer]

/-- Once granted, the buffer is released by `FontProperty` whenever the
lookup returns, with or without an error. -/
theorem FontProperty_releases_on_return (f : Font) (property : sfnt.NameID) :
    (FontProperty (some f) property 0).2 = 0 := by
  unfold FontProperty callName
  rw [getSfntBuffer_zero]
  simp only [releaseSfntBuffer]
  split <;> rfl

/-- Claim C6, evaluated where it fails. Starting with the flag at 0,
`GetMissingRunes` ends with the flag at 0 on every exit path, a panic of the
lookup included, and `FontProperty` does so whenever the lookup returns; but
`FontProperty` on a nil font panics in the lookup and leaves the flag at 1,
while `GetMissingRunes` on a nil font panics and leaves it at 0. -/
theorem FontProperty_nil_font_keeps_buffer :
    FontProperty none sfnt.NameIDFamily 0 = (Call.panic, 1) ∧
    GetMissingRunes none "a" 0 = (Call.panic, 0) ∧
    (∀ (font : Option Font) (text : String), (GetMissingRunes font text 0).2 = 0) ∧
    (∀ (f : Font) (property : sfnt.NameID), (FontProperty (some f) property 0).2 = 0) :=
  ⟨rfl, by decide, GetMissingRunes_releases, FontProperty_releases_on_return⟩

/-! ## Theorems: missing runes -/

/-- When every lookup succeeds the loop appends the runes without a glyph, in
order, to what it started with. -/
theorem missingRunesLoop_all_ok (f : Font) (b : BufferPtr) (l : List Char) :
    ∀ missing : List Char, (∀ c ∈ l, (f.GlyphIndex b c).2 = none) →
      missingRunesLoop (some f) b l missing =
        Call.ret (missing ++ l.filter (glyphMissing f b), none) := by
  induction l with
  | nil => intro missing _; simp [missingRunesLoop]
  | cons c rest ih =>
    intro missing hok
    have hc : (f.GlyphIndex b c).2 = none := hok c (List.mem_cons_self c rest)
    have hrest : ∀ x ∈ rest, (f.GlyphIndex b x).2 = none :=
      fun x hx => hok x (List.mem_cons_of_mem c hx)
    rcases hg : f.GlyphIndex b c with ⟨index, err⟩
    rw [hg] at hc
    simp only at hc
    subst hc
    by_cases hi : index = 0
    · simp [missingRunesLoop, callGlyphIndex, hg, hi, ih _ hrest, List.filter_cons,
        glyphMissing]
    · simp [missingRunesLoop, callGlyphIndex, hg, hi, ih _ hrest, List.filter_cons,
        glyphMissing]

/-- When the first failing lookup is that of `c`, the loop returns its error
with the missing runes found before `c`. -/
theorem missingRunesLoop_first_failure (f : Font) (b : BufferPtr) (c : Char)
    (post : List Char) (e : GoError) (hc : (f.GlyphIndex b c).2 = some e) (pre : List Char) :
    ∀ missing : List Char, (∀ x ∈ pre, (f.GlyphIndex b x).2 = none) →
      missingRunesLoop (some f) b (pre ++ c :: post) missing =
        Call.ret (missing ++ pre.filter (glyphMissing f b), some e) := by
  induction pre with
  | nil =>
    intro missing _
    rcases hg : f.GlyphIndex b c with ⟨index, err⟩
    rw [hg] at hc
    simp only at hc
    subst hc
    simp [missingRunesLoop, callGlyphIndex, hg]
  | cons x rest ih =>
    intro missing hok
    have hx : (f.GlyphIndex b x).2 = none := hok x (List.mem_cons_self x rest)
    have hrest : ∀ y ∈ rest, (f.GlyphIndex b y).2 = none :=
      fun y hy => hok y (List.mem_cons_of_mem x hy)
    rcases hg : f.GlyphIndex b x with ⟨index, err⟩
    rw [hg] at hx
    simp only at hx
    subst hx
    by_cases hi : index = 0
    · simp [missingRunesLoop, callGlyphIndex, hg, hi, ih _ hrest, List.filter_cons,
        glyphMissing]
    · simp [missingRunesLoop, callGlyphIndex, hg, hi, ih _ hrest, List.filter_cons,
        glyphMissing]

/-- Claim C4. For every font and text for which no glyph-index lookup fails,
`GetMissingRunes` returns a nil error and exactly the runes of the text whose
glyph index is 0, in text order and with repetitions (the filter of the rune
sequence); that result is empty exactly when every rune has a glyph, and it is
never longer than the text. -/
theorem GetMissingRunes_is_filter (f : Font) (text : String) (flag : Nat)
    (hok : ∀ c ∈ text.data, (f.GlyphIndex (getSfntBuffer flag).1 c).2 = none) :
    (GetMissingRunes (some f) text flag).1 =
      Call.ret (text.data.filter (glyphMissing f (getSfntBuffer flag).1), none) ∧
    (text.data.filter (glyphMissing f (getSfntBuffer flag).1) = [] ↔
      ∀ c ∈ text.data, (f.GlyphIndex (getSfntBuffer flag).1 c).1 ≠ 0) ∧
    (text.data.filter (glyphMissing f (getSfntBuffer flag).1)).length ≤ text.length := by
  refine ⟨?_, ?_, ?_⟩
  · unfold GetMissingRunes
    rcases hb : getSfntBuffer flag with ⟨b, fl⟩
    rw [hb] at hok
    simp [missingRunesLoop_all_ok f b text.data [] hok]
  · simp [List.filter_eq_nil_iff, glyphMissing]
  · exact List.length_filter_le _ _

/-- Witness: in a text whose lookups all succeed, the two runes without
a glyph come back in order. -/
theorem GetMissingRunes_is_filter_witness :
    (GetMissingRunes (some sampleFont) "héllo wörld" 0).1 = Call.ret (['é', 'ö'], none) :=
  (GetMissingRunes_is_filter sampleFont "héllo wörld" 0 (by decide)).1

/-- Claim C8. When a glyph-index lookup fails inside `GetMissingRunes`, the
function stops at the first failing code point `c`: it returns the error of
that lookup together with exactly the missing runes among the code points
before `c`, in order; what follows `c` has no influence on the outcome, and
`c` itself is not in the result. -/
theorem GetMissingRunes_stops_at_first_failure (f : Font) (pre post : List Char) (c : Char)
    (e : GoError) (flag : Nat)
    (hpre : ∀ x ∈ pre, (f.GlyphIndex (getSfntBuffer flag).1 x).2 = none)
    (hc : (f.GlyphIndex (getSfntBuffer flag).1 c).2 = some e) :
    (GetMissingRunes (some f) (String.mk (pre ++ c :: post)) flag).1 =
      Call.ret (pre.filter (glyphMissing f (getSfntBuffer flag).1), some e) ∧
    GetMissingRunes (some f) (String.mk (pre ++ c :: post)) flag =
      GetMissingRunes (some f) (String.mk (pre ++ [c])) flag ∧
    c ∉ pre.filter (glyphMissing f (getSfntBuffer flag).1) := by
  refine ⟨?_, ?_, ?_⟩
  · unfold GetMissingRunes
    rcases hb : getSfntBuffer flag with ⟨b, fl⟩
    rw [hb] at hpre hc
    simp [missingRunesLoop_first_failure f b c post e hc pre [] hpre]
  · unfold GetMissingRunes
    rcases hb : getSfntBuffer flag with ⟨b, fl⟩
    rw [hb] at hpre hc
    simp [missingRunesLoop_first_failure f b c post e hc pre [] hpre,
      missingRunesLoop_first_failure f b c [] e hc pre [] hpre]
  · intro hmem
    have hin : c ∈ pre := List.mem_of_mem_filter hmem
    rw [hpre c hin] at hc
    cases hc

/-- Witness: the lookup of the euro sign fails, so the result holds the
one missing rune before it and none of the two after it. -/
theorem GetMissingRunes_stops_at_first_failure_witness :
    (GetMissingRunes (some sampleFont) "héllo w€öäärld" 0).1 =
      Call.ret (['é'], some (GoError.other "sfnt: invalid cmap table")) :=
  (GetMissingRunes_stops_at_first_failure sampleFont "héllo w".data "öäärld".data '€'
    (GoError.other "sfnt: invalid cmap table") 0 (by decide) rfl).1

end Etxt
